import Mathlib

/-!
# Gambling transaction engine — shallow embedding

Shallow embedding of the gambling transaction engine of
`bot/cogs/gambling_broken.py` and the wallet ledger of
`bot/models/database.py`, with theorems settling the specification's
claims about it.

Conventions:
* machine integers are `Int`/`Nat`; stakes arrive as `Int` (user input may
  be non-positive and is validated by the commands);
* the Mongo calls of `DatabaseManager` become pure state transformers on
  an `Option Wallet` (one account's document, `none` = not yet created);
* each slash command becomes a trace function returning the ordered list
  of externally visible effects (lock acquisition, ledger deltas, journal
  writes, rejections), with the randomness (slot reels, roulette result,
  shuffled deck) passed in as an argument.
-/

/-! ## Ledger store (`DatabaseManager.get_wallet` / `update_wallet`) -/

/-- One account's wallet document (`economy` collection): the fields the
engine reads and writes.  `guild_id`/`discord_id` key the document and are
left implicit; timestamps are irrelevant to the claims. -/
structure Wallet where
  balance : Int
  total_earned : Int
  total_spent : Int
  deriving DecidableEq, Repr

/-- The zero wallet `get_wallet` inserts for a previously-unseen account. -/
def zeroWallet : Wallet := ⟨0, 0, 0⟩

/-- The `$inc` update of `DatabaseManager.update_wallet`: balance is
incremented by `amount`; `total_earned` by `amount` when `amount > 0`,
otherwise `total_spent` by `abs(amount)`. -/
def applyInc (w : Wallet) (amount : Int) : Wallet :=
  if amount > 0 then
    { balance := w.balance + amount
      total_earned := w.total_earned + amount
      total_spent := w.total_spent }
  else
    { balance := w.balance + amount
      total_earned := w.total_earned
      total_spent := w.total_spent + (amount.natAbs : Int) }

/-- `DatabaseManager.update_wallet` on one account's document: an upserted
`$inc`, so a missing document behaves as the zero wallet. -/
def update_wallet (w : Option Wallet) (amount : Int) : Option Wallet :=
  some (applyInc (w.getD zeroWallet) amount)

/-- `DatabaseManager.get_wallet`: returns the existing document, inserting
the zero wallet when the account is previously unseen. -/
def get_wallet (w : Option Wallet) : Wallet × Option Wallet :=
  (w.getD zeroWallet, some (w.getD zeroWallet))

/-- Folding a list of signed deltas into the ledger, oldest first. -/
def applyDeltas (w : Option Wallet) (ds : List Int) : Option Wallet :=
  ds.foldl update_wallet w

/-- C3: `apply_delta(+X)` then `apply_delta(-X)` on a previously-unseen
account returns the balance to its starting value 0, with
`total_earned = X` and `total_spent = X`. -/
theorem update_wallet_round_trip (X : Int) (hX : 0 < X) :
    update_wallet (update_wallet none X) (-X) =
      some { balance := 0, total_earned := X, total_spent := X } := by
  simp only [update_wallet, applyInc, Option.getD, zeroWallet]
  rw [if_pos hX, if_neg (by omega)]
  simp only [Option.getD]
  have habs : ((-X).natAbs : Int) = X := by
    rw [Int.natAbs_neg]
    exact Int.natAbs_of_nonneg (le_of_lt hX)
  simp [habs]
  omega

/-- Witness for C3 at `X = 5`. -/
theorem update_wallet_round_trip_witness :
    update_wallet (update_wallet none 5) (-5) =
      some { balance := 0, total_earned := 5, total_spent := 5 } :=
  update_wallet_round_trip 5 (by decide)

/-! ## Slot resolver (`Gambling.slots`, payout table) -/

/-- The seven slot symbols, in the order of the `symbols` list
`['🍒', '🍋', '🍊', '🍇', '💎', '⭐', '7️⃣']` (weights `[30, 25, 20, 15, 5, 3, 2]`). -/
inductive SlotSymbol where
  | cherry | lemon | orange | grape | diamond | star | seven
  deriving DecidableEq, Repr, Fintype

/-- The winnings computation of `Gambling.slots` on a drawn triple of
reels: three-of-a-kind at `7️⃣`/`💎`/`⭐` pays `bet*100`/`bet*50`/`bet*25`,
any other three-of-a-kind `bet*10`, any matching pair `bet*2`, else 0. -/
def slotsWinnings (bet : Int) (r0 r1 r2 : SlotSymbol) : Int :=
  if r0 = r1 ∧ r1 = r2 then
    if r0 = SlotSymbol.seven then bet * 100
    else if r0 = SlotSymbol.diamond then bet * 50
    else if r0 = SlotSymbol.star then bet * 25
    else bet * 10
  else if r0 = r1 ∨ r1 = r2 ∨ r0 = r2 then bet * 2
  else 0

/-- Multiplier form of `slotsWinnings` (same branch structure). -/
def slotsMult (r0 r1 r2 : SlotSymbol) : Int :=
  if r0 = r1 ∧ r1 = r2 then
    if r0 = SlotSymbol.seven then 100
    else if r0 = SlotSymbol.diamond then 50
    else if r0 = SlotSymbol.star then 25
    else 10
  else if r0 = r1 ∨ r1 = r2 ∨ r0 = r2 then 2
  else 0

theorem slotsWinnings_eq_mult (bet : Int) (r0 r1 r2 : SlotSymbol) :
    slotsWinnings bet r0 r1 r2 = bet * slotsMult r0 r1 r2 := by
  unfold slotsWinnings slotsMult
  split_ifs <;> ring

/-- Exactly two of the three symbols match: some pair is equal but not all
three are. -/
def exactlyTwoMatch (r0 r1 r2 : SlotSymbol) : Prop :=
  (r0 = r1 ∨ r1 = r2 ∨ r0 = r2) ∧ ¬(r0 = r1 ∧ r1 = r2)

instance (r0 r1 r2 : SlotSymbol) : Decidable (exactlyTwoMatch r0 r1 r2) := by
  unfold exactlyTwoMatch; infer_instance

/-- The payout rule as the claim states it: 100× on triple top-tier
(`7️⃣`), 50× on triple tier-2 (`💎`), 25× on triple tier-3 (`⭐`), 10× on
any other three-of-a-kind, 2× when exactly two symbols match, else 0. -/
def slotsSpecPayout (bet : Int) (r0 r1 r2 : SlotSymbol) : Int :=
  if r0 = SlotSymbol.seven ∧ r1 = SlotSymbol.seven ∧ r2 = SlotSymbol.seven then bet * 100
  else if r0 = SlotSymbol.diamond ∧ r1 = SlotSymbol.diamond ∧ r2 = SlotSymbol.diamond then bet * 50
  else if r0 = SlotSymbol.star ∧ r1 = SlotSymbol.star ∧ r2 = SlotSymbol.star then bet * 25
  else if r0 = r1 ∧ r1 = r2 then bet * 10
  else if exactlyTwoMatch r0 r1 r2 then bet * 2
  else 0

/-- Multiplier form of `slotsSpecPayout` (same branch structure). -/
def slotsSpecMult (r0 r1 r2 : SlotSymbol) : Int :=
  if r0 = SlotSymbol.seven ∧ r1 = SlotSymbol.seven ∧ r2 = SlotSymbol.seven then 100
  else if r0 = SlotSymbol.diamond ∧ r1 = SlotSymbol.diamond ∧ r2 = SlotSymbol.diamond then 50
  else if r0 = SlotSymbol.star ∧ r1 = SlotSymbol.star ∧ r2 = SlotSymbol.star then 25
  else if r0 = r1 ∧ r1 = r2 then 10
  else if exactlyTwoMatch r0 r1 r2 then 2
  else 0

theorem slotsSpecPayout_eq_mult (bet : Int) (r0 r1 r2 : SlotSymbol) :
    slotsSpecPayout bet r0 r1 r2 = bet * slotsSpecMult r0 r1 r2 := by
  unfold slotsSpecPayout slotsSpecMult
  split_ifs <;> ring

theorem slotsMult_eq_spec (r0 r1 r2 : SlotSymbol) :
    slotsMult r0 r1 r2 = slotsSpecMult r0 r1 r2 := by
  revert r0 r1 r2; decide

/-- How many of the claim's six payout rules fire on a draw. -/
def slotsRulesFiring (r0 r1 r2 : SlotSymbol) : Nat :=
  (if r0 = SlotSymbol.seven ∧ r1 = SlotSymbol.seven ∧ r2 = SlotSymbol.seven then 1 else 0) +
  (if (r0 = SlotSymbol.diamond ∧ r1 = SlotSymbol.diamond ∧ r2 = SlotSymbol.diamond) then 1 else 0) +
  (if (r0 = SlotSymbol.star ∧ r1 = SlotSymbol.star ∧ r2 = SlotSymbol.star) then 1 else 0) +
  (if (r0 = r1 ∧ r1 = r2) ∧ r0 ≠ SlotSymbol.seven ∧ r0 ≠ SlotSymbol.diamond ∧ r0 ≠ SlotSymbol.star
    then 1 else 0) +
  (if exactlyTwoMatch r0 r1 r2 then 1 else 0) +
  (if ¬(r0 = r1 ∨ r1 = r2 ∨ r0 = r2) then 1 else 0)

/-- C5: the slots winnings agree with the claim's tiered payout rule on
every draw and stake, and exactly one of the six rules applies to any
draw. -/
theorem slots_payout_correct (bet : Int) (r0 r1 r2 : SlotSymbol) :
    slotsWinnings bet r0 r1 r2 = slotsSpecPayout bet r0 r1 r2 ∧
      slotsRulesFiring r0 r1 r2 = 1 := by
  constructor
  · rw [slotsWinnings_eq_mult, slotsSpecPayout_eq_mult, slotsMult_eq_spec]
  · revert r0 r1 r2; decide

/-- Witness for C5 at a concrete draw: `[7,7,7]` with stake 3. -/
theorem slots_payout_correct_witness :
    slotsWinnings 3 SlotSymbol.seven SlotSymbol.seven SlotSymbol.seven =
        slotsSpecPayout 3 SlotSymbol.seven SlotSymbol.seven SlotSymbol.seven ∧
      slotsRulesFiring SlotSymbol.seven SlotSymbol.seven SlotSymbol.seven = 1 :=
  slots_payout_correct 3 SlotSymbol.seven SlotSymbol.seven SlotSymbol.seven

/-! ## Roulette resolver (`Gambling.roulette`, winnings computation) -/

/-- One slot of the 38-slot wheel: `0`, `00`, or a number `1..36`
(`num i` stands for the number `i + 1`). -/
inductive RSlot where
  | zero
  | dzero
  | num (i : Fin 36)
  deriving DecidableEq, Repr, Fintype

/-- The number a wheel slot shows (`int(result)`; 0 for `0`/`00`, where the
code never converts). -/
def RSlot.number : RSlot → Nat
  | .zero => 0
  | .dzero => 0
  | .num i => i.val + 1

/-- A recognized roulette choice, after the command's validation of the
choice string: a side bet (`red`/`black`/`odd`/`even`/`low`/`high`) or an
exact slot (`0`, `00`, `1`..`36`). -/
inductive RChoice where
  | red | black | odd | even | low | high
  | exact (s : RSlot)
  deriving DecidableEq, Repr, Fintype

/-- The `red_numbers` literal of `Gambling.roulette`. -/
def redNumbers : List Nat := [1, 3, 5, 7, 9, 12, 14, 16, 18, 19, 21, 23, 25, 27, 30, 32, 34, 36]

/-- The `black_numbers` literal of `Gambling.roulette`. -/
def blackNumbers : List Nat := [2, 4, 6, 8, 10, 11, 13, 15, 17, 20, 22, 24, 26, 28, 29, 31, 33, 35]

/-- The winnings computation of `Gambling.roulette`: an exact match of the
choice string against the result pays `bet*35`; otherwise, when the result
is not `0`/`00`, the first satisfied side-bet check pays `bet*2`; else 0. -/
def rouletteWinnings (bet : Int) (choice : RChoice) (result : RSlot) : Int :=
  if choice = RChoice.exact result then bet * 35
  else if result ≠ RSlot.zero ∧ result ≠ RSlot.dzero then
    if choice = RChoice.red ∧ result.number ∈ redNumbers then bet * 2
    else if choice = RChoice.black ∧ result.number ∈ blackNumbers then bet * 2
    else if choice = RChoice.odd ∧ result.number % 2 = 1 then bet * 2
    else if choice = RChoice.even ∧ result.number % 2 = 0 then bet * 2
    else if choice = RChoice.low ∧ 1 ≤ result.number ∧ result.number ≤ 18 then bet * 2
    else if choice = RChoice.high ∧ 19 ≤ result.number ∧ result.number ≤ 36 then bet * 2
    else 0
  else 0

/-- Multiplier form of `rouletteWinnings` (same branch structure). -/
def rouletteMult (choice : RChoice) (result : RSlot) : Int :=
  if choice = RChoice.exact result then 35
  else if result ≠ RSlot.zero ∧ result ≠ RSlot.dzero then
    if choice = RChoice.red ∧ result.number ∈ redNumbers then 2
    else if choice = RChoice.black ∧ result.number ∈ blackNumbers then 2
    else if choice = RChoice.odd ∧ result.number % 2 = 1 then 2
    else if choice = RChoice.even ∧ result.number % 2 = 0 then 2
    else if choice = RChoice.low ∧ 1 ≤ result.number ∧ result.number ≤ 18 then 2
    else if choice = RChoice.high ∧ 19 ≤ result.number ∧ result.number ≤ 36 then 2
    else 0
  else 0

theorem rouletteWinnings_eq_mult (bet : Int) (choice : RChoice) (result : RSlot) :
    rouletteWinnings bet choice result = bet * rouletteMult choice result := by
  unfold rouletteWinnings rouletteMult
  split_ifs <;> ring

/-- A side bet (color, parity, high/low) is satisfied by the drawn result,
as the claim reads: `0` and `00` satisfy no side bet; a numbered result
satisfies `red`/`black` by its color, `odd`/`even` by its parity, and
`low`/`high` by the ranges 1–18 / 19–36.  An exact-number choice is not a
side bet. -/
def sideBetSatisfied (choice : RChoice) (result : RSlot) : Prop :=
  match result with
  | RSlot.zero => False
  | RSlot.dzero => False
  | RSlot.num i =>
    match choice with
    | RChoice.red => (i.val + 1) ∈ redNumbers
    | RChoice.black => (i.val + 1) ∈ blackNumbers
    | RChoice.odd => (i.val + 1) % 2 = 1
    | RChoice.even => (i.val + 1) % 2 = 0
    | RChoice.low => 1 ≤ i.val + 1 ∧ i.val + 1 ≤ 18
    | RChoice.high => 19 ≤ i.val + 1 ∧ i.val + 1 ≤ 36
    | RChoice.exact _ => False

instance (choice : RChoice) (result : RSlot) : Decidable (sideBetSatisfied choice result) :=
  match result, choice with
  | RSlot.zero, _ => isFalse (fun h => h)
  | RSlot.dzero, _ => isFalse (fun h => h)
  | RSlot.num i, RChoice.red => inferInstanceAs (Decidable ((i.val + 1) ∈ redNumbers))
  | RSlot.num i, RChoice.black => inferInstanceAs (Decidable ((i.val + 1) ∈ blackNumbers))
  | RSlot.num i, RChoice.odd => inferInstanceAs (Decidable ((i.val + 1) % 2 = 1))
  | RSlot.num i, RChoice.even => inferInstanceAs (Decidable ((i.val + 1) % 2 = 0))
  | RSlot.num i, RChoice.low => inferInstanceAs (Decidable (1 ≤ i.val + 1 ∧ i.val + 1 ≤ 18))
  | RSlot.num i, RChoice.high => inferInstanceAs (Decidable (19 ≤ i.val + 1 ∧ i.val + 1 ≤ 36))
  | RSlot.num _, RChoice.exact _ => isFalse (fun h => h)

/-- The payout rule as the claim states it: 35× the stake on an
exact-number match, 2× when a color/parity/high-low choice is satisfied by
the result, 0 otherwise. -/
def rouletteSpecPayout (bet : Int) (choice : RChoice) (result : RSlot) : Int :=
  if choice = RChoice.exact result then bet * 35
  else if sideBetSatisfied choice result then bet * 2
  else 0

/-- Multiplier form of `rouletteSpecPayout` (same branch structure). -/
def rouletteSpecMult (choice : RChoice) (result : RSlot) : Int :=
  if choice = RChoice.exact result then 35
  else if sideBetSatisfied choice result then 2
  else 0

theorem rouletteSpecPayout_eq_mult (bet : Int) (choice : RChoice) (result : RSlot) :
    rouletteSpecPayout bet choice result = bet * rouletteSpecMult choice result := by
  unfold rouletteSpecPayout rouletteSpecMult
  split_ifs <;> ring

theorem rouletteMult_eq_spec (choice : RChoice) (result : RSlot) :
    rouletteMult choice result = rouletteSpecMult choice result := by
  revert choice result; decide

/-- C6: the roulette winnings agree with the claim's payout rule for every
recognized choice, drawn result and stake; in particular when the result
is `0` or `00`, every choice other than the exact-number bet on that slot
pays 0. -/
theorem roulette_payout_correct (bet : Int) (choice : RChoice) (result : RSlot) :
    rouletteWinnings bet choice result = rouletteSpecPayout bet choice result ∧
      ((result = RSlot.zero ∨ result = RSlot.dzero) → choice ≠ RChoice.exact result →
        rouletteWinnings bet choice result = 0) := by
  have hmain : rouletteWinnings bet choice result = rouletteSpecPayout bet choice result := by
    rw [rouletteWinnings_eq_mult, rouletteSpecPayout_eq_mult, rouletteMult_eq_spec]
  refine ⟨hmain, fun hz hne => ?_⟩
  rw [hmain]
  have hside : ¬ sideBetSatisfied choice result := by
    rcases hz with h | h <;> subst h <;> exact fun h => h
  unfold rouletteSpecPayout
  rw [if_neg hne, if_neg hside]

/-- Witness for C6: choice `17` against drawn `17` (and the zero-result
clause instantiated trivially). -/
theorem roulette_payout_correct_witness :
    rouletteWinnings 4 (RChoice.exact (RSlot.num ⟨16, by decide⟩)) (RSlot.num ⟨16, by decide⟩) =
        rouletteSpecPayout 4 (RChoice.exact (RSlot.num ⟨16, by decide⟩))
          (RSlot.num ⟨16, by decide⟩) ∧
      ((RSlot.num ⟨16, by decide⟩ = RSlot.zero ∨ RSlot.num ⟨16, by decide⟩ = RSlot.dzero) →
        RChoice.exact (RSlot.num ⟨16, by decide⟩) ≠ RChoice.exact (RSlot.num ⟨16, by decide⟩) →
        rouletteWinnings 4 (RChoice.exact (RSlot.num ⟨16, by decide⟩)) (RSlot.num ⟨16, by decide⟩) = 0) :=
  roulette_payout_correct 4 (RChoice.exact (RSlot.num ⟨16, by decide⟩)) (RSlot.num ⟨16, by decide⟩)

/-! ## Blackjack hand value (`card_value` in `Gambling.blackjack` and
`BlackjackView.card_value`; both bodies are identical) -/

/-- A card's rank (`card[:-2]` strips the two-codepoint suit emoji, so
only the rank matters to `card_value`). -/
inductive Rank where
  | ace | two | three | four | five | six | seven | eight | nine | ten
  | jack | queen | king
  deriving DecidableEq, Repr

/-- The amount the accumulation loop adds for a card: 10 for `J`/`Q`/`K`,
11 for `A`, otherwise `int(rank)`. -/
def rankAdd : Rank → Nat
  | Rank.jack => 10
  | Rank.queen => 10
  | Rank.king => 10
  | Rank.ace => 11
  | Rank.two => 2
  | Rank.three => 3
  | Rank.four => 4
  | Rank.five => 5
  | Rank.six => 6
  | Rank.seven => 7
  | Rank.eight => 8
  | Rank.nine => 9
  | Rank.ten => 10

/-- The `while value > 21 and aces > 0: value -= 10; aces -= 1` loop. -/
def reduceAces : Nat → Nat → Nat
  | value, 0 => value
  | value, aces + 1 => if value > 21 then reduceAces (value - 10) aces else value

/-- The hand-value function of the blackjack code: one pass accumulating
`value` (aces as 11) and the ace count, then the reduction loop. -/
def card_value (cards : List Rank) : Nat :=
  let p := cards.foldl
    (fun p c => (p.1 + rankAdd c, p.2 + (if c = Rank.ace then 1 else 0))) (0, 0)
  reduceAces p.1 p.2

/-- A card's minimal value: aces as 1, faces as 10. -/
def hardRank (r : Rank) : Nat :=
  if r = Rank.ace then 1 else rankAdd r

/-- The minimal total of a hand (every ace counted as 1). -/
def hardTotal : List Rank → Nat
  | [] => 0
  | c :: cs => hardRank c + hardTotal cs

/-- The number of aces in a hand. -/
def numAces : List Rank → Nat
  | [] => 0
  | c :: cs => (if c = Rank.ace then 1 else 0) + numAces cs

/-- `t` is an achievable total of the hand: some `k` of its aces counted
as 11 (each adding 10 over the minimal total) and the rest as 1. -/
def achievableTotal (cards : List Rank) (t : Nat) : Prop :=
  ∃ k, k ≤ numAces cards ∧ t = hardTotal cards + 10 * k

theorem hardTotal_eq_sum_add (cards : List Rank) :
    hardTotal cards + 10 * numAces cards =
      (cards.map rankAdd).sum := by
  induction cards with
  | nil => rfl
  | cons c cs ih =>
    simp only [hardTotal, numAces, List.map_cons, List.sum_cons, ← ih, hardRank]
    by_cases hc : c = Rank.ace
    · subst hc; simp [rankAdd]; ring
    · rw [if_neg hc, if_neg hc]; ring

theorem card_value_foldl (cards : List Rank) (v a : Nat) :
    cards.foldl (fun p c => (p.1 + rankAdd c, p.2 + (if c = Rank.ace then 1 else 0))) (v, a) =
      (v + (cards.map rankAdd).sum, a + numAces cards) := by
  induction cards generalizing v a with
  | nil => simp [numAces]
  | cons c cs ih =>
    simp only [List.foldl_cons, ih, List.map_cons, List.sum_cons, numAces, Prod.mk.injEq]
    constructor <;> ring

/-- The accumulation pass computes the all-aces-high total and ace count. -/
theorem card_value_eq_reduce (cards : List Rank) :
    card_value cards =
      reduceAces (hardTotal cards + 10 * numAces cards) (numAces cards) := by
  unfold card_value
  rw [card_value_foldl cards 0 0, hardTotal_eq_sum_add]
  simp

/-- Behaviour of the reduction loop started from the all-aces-high total:
its result is an achievable total; when the minimal total fits under 21 it
is the largest achievable total not exceeding 21; when even the minimal
total busts it is the minimal total. -/
theorem reduceAces_characterization (a : Nat) : ∀ m : Nat,
    (∃ k, k ≤ a ∧ reduceAces (m + 10 * a) a = m + 10 * k) ∧
      (m ≤ 21 → reduceAces (m + 10 * a) a ≤ 21 ∧
        ∀ k, k ≤ a → m + 10 * k ≤ 21 → m + 10 * k ≤ reduceAces (m + 10 * a) a) ∧
      (21 < m → reduceAces (m + 10 * a) a = m) := by
  induction a with
  | zero =>
    intro m
    refine ⟨⟨0, le_refl 0, by simp [reduceAces]⟩, fun hm => ⟨by simpa [reduceAces], ?_⟩,
      fun _ => by simp [reduceAces]⟩
    intro k hk _
    interval_cases k
    simp [reduceAces]
  | succ a ih =>
    intro m
    have hstep : reduceAces (m + 10 * (a + 1)) (a + 1) =
        if m + 10 * (a + 1) > 21 then reduceAces (m + 10 * a) a else m + 10 * (a + 1) := by
      show (if m + 10 * (a + 1) > 21 then reduceAces (m + 10 * (a + 1) - 10) a
        else m + 10 * (a + 1)) = _
      have : m + 10 * (a + 1) - 10 = m + 10 * a := by omega
      rw [this]
    by_cases hbig : m + 10 * (a + 1) > 21
    · rw [hstep, if_pos hbig]
      obtain ⟨⟨k, hk, hval⟩, hfit, hbust⟩ := ih m
      refine ⟨⟨k, Nat.le_succ_of_le hk, hval⟩, fun hm => ?_, hbust⟩
      obtain ⟨hle, hmax⟩ := hfit hm
      refine ⟨hle, fun k' hk' hk21 => ?_⟩
      have : k' ≤ a := by omega
      exact hmax k' this hk21
    · rw [hstep, if_neg hbig]
      push_neg at hbig
      refine ⟨⟨a + 1, le_refl _, rfl⟩, fun _ => ⟨hbig, fun k hk _ => by omega⟩,
        fun hm => by omega⟩

/-- C7: for every hand, the computed hand value is an achievable total
(each ace as 11 or 1); when some achievable total does not exceed 21 the
value is the largest such total, and otherwise it is the minimal total
(all aces as 1). -/
theorem card_value_optimal (cards : List Rank) :
    achievableTotal cards (card_value cards) ∧
      ((∃ t, achievableTotal cards t ∧ t ≤ 21) →
        card_value cards ≤ 21 ∧
          ∀ t, achievableTotal cards t → t ≤ 21 → t ≤ card_value cards) ∧
      (¬(∃ t, achievableTotal cards t ∧ t ≤ 21) →
        card_value cards = hardTotal cards ∧
          ∀ t, achievableTotal cards t → hardTotal cards ≤ t) := by
  have hred := reduceAces_characterization (numAces cards) (hardTotal cards)
  rw [← card_value_eq_reduce] at hred
  obtain ⟨⟨k, hk, hval⟩, hfit, hbust⟩ := hred
  refine ⟨⟨k, hk, hval⟩, fun hex => ?_, fun hnex => ?_⟩
  · obtain ⟨t, ⟨k', hk', ht⟩, ht21⟩ := hex
    have hm : hardTotal cards ≤ 21 := by omega
    obtain ⟨hle, hmax⟩ := hfit hm
    exact ⟨hle, fun t' ⟨k'', hk'', ht'⟩ ht21' => ht' ▸ hmax k'' hk'' (ht' ▸ ht21')⟩
  · push_neg at hnex
    have hm : 21 < hardTotal cards := by
      by_contra hle
      push_neg at hle
      have := hnex (hardTotal cards) ⟨0, Nat.zero_le _, by ring⟩
      omega
    exact ⟨hbust hm, fun t ⟨k', hk', ht⟩ => by omega⟩

/-- Witness for C7 at the hand `[A, K]` (value 21). -/
theorem card_value_optimal_witness :
    achievableTotal [Rank.ace, Rank.king] (card_value [Rank.ace, Rank.king]) ∧
      ((∃ t, achievableTotal [Rank.ace, Rank.king] t ∧ t ≤ 21) →
        card_value [Rank.ace, Rank.king] ≤ 21 ∧
          ∀ t, achievableTotal [Rank.ace, Rank.king] t → t ≤ 21 →
            t ≤ card_value [Rank.ace, Rank.king]) ∧
      (¬(∃ t, achievableTotal [Rank.ace, Rank.king] t ∧ t ≤ 21) →
        card_value [Rank.ace, Rank.king] = hardTotal [Rank.ace, Rank.king] ∧
          ∀ t, achievableTotal [Rank.ace, Rank.king] t →
            hardTotal [Rank.ace, Rank.king] ≤ t) :=
  card_value_optimal [Rank.ace, Rank.king]

/-! ## Blackjack session (`BlackjackView`) -/

/-- `deck.pop()`: removes and returns the last card of the draw pile
(`none` models the `IndexError` on an empty pile). -/
def popCard (deck : List Rank) : Option (Rank × List Rank) :=
  match deck.getLast? with
  | none => none
  | some c => some (c, deck.dropLast)

theorem popCard_length {deck rest : List Rank} {c : Rank}
    (h : popCard deck = some (c, rest)) : rest.length < deck.length := by
  unfold popCard at h
  cases hd : deck.getLast? with
  | none => rw [hd] at h; exact absurd h (by simp)
  | some c' =>
    rw [hd] at h
    have hne : deck ≠ [] := by
      intro hnil; rw [hnil] at hd; simp at hd
    have : rest = deck.dropLast := by
      injection h with h'; injection h' with _ h2; exact h2.symm
    rw [this, List.length_dropLast]
    have : 0 < deck.length := List.length_pos.mpr hne
    omega

/-- The live state of one `BlackjackView`, together with the externally
visible effects it has produced: the wallet deltas passed to
`update_wallet` and the net results journalled by `add_wallet_event`
(both oldest first). -/
structure BJState where
  deck : List Rank
  player_cards : List Rank
  dealer_cards : List Rank
  bet : Int
  game_over : Bool
  deltas : List Int
  journal : List Int
  deriving DecidableEq, Repr

/-- `BlackjackView.end_game`: sets the terminal flag, applies the single
wallet delta `net_result` and journals it. -/
def endGame (s : BJState) (net : Int) : BJState :=
  { s with game_over := true, deltas := s.deltas ++ [net], journal := s.journal ++ [net] }

/-- `BlackjackView.hit_button`: rejected when the game is over; otherwise
draws one card, and on a value over 21 ends the game with net `-bet`. -/
def hit (s : BJState) : BJState :=
  if s.game_over then s
  else
    match popCard s.deck with
    | none => s
    | some (c, rest) =>
      let player := s.player_cards ++ [c]
      if card_value player > 21 then
        endGame { s with deck := rest, player_cards := player } (-s.bet)
      else
        { s with deck := rest, player_cards := player }

/-- The dealer's `while value < 17` drawing loop, recursing on a fuel
bound that the pile's length always satisfies (each iteration pops one
card); the Bool is false when the draw pile ran out mid-loop (the Python
`IndexError` path, on which no settlement happens). -/
def dealerDrawGo (fuel : Nat) (deck dealer : List Rank) : List Rank × List Rank × Bool :=
  if card_value dealer < 17 then
    match popCard deck, fuel with
    | none, _ => (deck, dealer, false)
    | some (c, rest), fuel' + 1 => dealerDrawGo fuel' rest (dealer ++ [c])
    | some _, 0 => (deck, dealer, false)
  else (deck, dealer, true)

/-- The dealer's drawing loop on the actual pile. -/
def dealerDraw (deck dealer : List Rank) : List Rank × List Rank × Bool :=
  dealerDrawGo deck.length deck dealer

/-- `BlackjackView.stand_button`: rejected when the game is over;
otherwise the dealer draws to 17 and the hands are compared, ending the
game with net `+bet`, `-bet` or 0. -/
def stand (s : BJState) : BJState :=
  if s.game_over then s
  else
    let d := dealerDraw s.deck s.dealer_cards
    let s' := { s with deck := d.1, dealer_cards := d.2.1 }
    if d.2.2 = false then s'
    else
      let dealer_value := card_value s'.dealer_cards
      let player_value := card_value s'.player_cards
      if dealer_value > 21 then endGame s' s.bet
      else if player_value > dealer_value then endGame s' s.bet
      else if dealer_value > player_value then endGame s' (-s.bet)
      else endGame s' 0

/-- C8: once a session is terminal (`game_over`), Hit and Stand are
no-ops: hands, deck, state flag, wallet deltas and journal are all
unchanged. -/
theorem terminal_absorbing (s : BJState) (h : s.game_over = true) :
    hit s = s ∧ stand s = s := by
  constructor
  · unfold hit; rw [if_pos h]
  · unfold stand; rw [if_pos h]

/-- Witness for C8 at a concrete terminal session (a bust just settled:
delta and journal `-10` already recorded). -/
theorem terminal_absorbing_witness :
    hit { deck := [Rank.two], player_cards := [Rank.king, Rank.queen, Rank.five],
          dealer_cards := [Rank.nine, Rank.seven], bet := 10, game_over := true,
          deltas := [-10], journal := [-10] } =
      { deck := [Rank.two], player_cards := [Rank.king, Rank.queen, Rank.five],
        dealer_cards := [Rank.nine, Rank.seven], bet := 10, game_over := true,
        deltas := [-10], journal := [-10] } ∧
    stand { deck := [Rank.two], player_cards := [Rank.king, Rank.queen, Rank.five],
            dealer_cards := [Rank.nine, Rank.seven], bet := 10, game_over := true,
            deltas := [-10], journal := [-10] } =
      { deck := [Rank.two], player_cards := [Rank.king, Rank.queen, Rank.five],
        dealer_cards := [Rank.nine, Rank.seven], bet := 10, game_over := true,
        deltas := [-10], journal := [-10] } :=
  terminal_absorbing _ rfl

/-! ## Wager orchestration traces

Each slash command, from its bet validation onward (the premium gate
before it touches no funds), as the ordered list of externally visible
effects it produces on one run; the drawn randomness is a parameter. -/

/-- The error taxonomy of a rejected bet. -/
inductive BetError where
  | invalidBet
  | insufficientFunds
  deriving DecidableEq, Repr

/-- An externally visible effect of one command run. -/
inductive Event where
  | lockAcquire
  | delta (amount : Int)
  | journal (amount : Int)
  | reject (e : BetError)
  deriving DecidableEq, Repr

/-- The ledger deltas of a trace, in order. -/
def deltasOf : List Event → List Int
  | [] => []
  | Event.delta a :: es => a :: deltasOf es
  | _ :: es => deltasOf es

/-- The journalled amounts of a trace, in order. -/
def journalOf : List Event → List Int
  | [] => []
  | Event.journal a :: es => a :: journalOf es
  | _ :: es => journalOf es

theorem deltasOf_append (xs ys : List Event) :
    deltasOf (xs ++ ys) = deltasOf xs ++ deltasOf ys := by
  induction xs with
  | nil => rfl
  | cons e es ih => cases e <;> simp [deltasOf, ih]

theorem journalOf_append (xs ys : List Event) :
    journalOf (xs ++ ys) = journalOf xs ++ journalOf ys := by
  induction xs with
  | nil => rfl
  | cons e es ih => cases e <;> simp [journalOf, ih]

/-- `/slots` ceiling (`bet > 10000` is rejected). -/
def slotsMaxBet : Int := 10000

/-- `/blackjack` ceiling (`bet > 5000` is rejected). -/
def blackjackMaxBet : Int := 5000

/-- `/roulette` ceiling (`bet > 2000` is rejected). -/
def rouletteMaxBet : Int := 2000

/-- `Gambling.slots`: validate the stake, lock, balance pre-check, debit
`-bet`, draw, credit the winnings when positive, journal the net. -/
def slotsTrace (bet balance : Int) (r0 r1 r2 : SlotSymbol) : List Event :=
  if bet ≤ 0 then [Event.reject BetError.invalidBet]
  else if bet > slotsMaxBet then [Event.reject BetError.invalidBet]
  else if balance < bet then [Event.lockAcquire, Event.reject BetError.insufficientFunds]
  else
    [Event.lockAcquire, Event.delta (-bet)] ++
      (if slotsWinnings bet r0 r1 r2 > 0 then [Event.delta (slotsWinnings bet r0 r1 r2)]
        else []) ++
      [Event.journal (slotsWinnings bet r0 r1 r2 - bet)]

/-- `Gambling.roulette`: validate the stake, lock, balance pre-check, draw,
then apply one wallet delta of `net_result = winnings - bet` and journal
it.  (The recognized-choice validation is subsumed by the `RChoice` type.) -/
def rouletteTrace (bet balance : Int) (choice : RChoice) (result : RSlot) : List Event :=
  if bet ≤ 0 then [Event.reject BetError.invalidBet]
  else if bet > rouletteMaxBet then [Event.reject BetError.invalidBet]
  else if balance < bet then [Event.lockAcquire, Event.reject BetError.insufficientFunds]
  else
    [Event.lockAcquire,
      Event.delta (rouletteWinnings bet choice result - bet),
      Event.journal (rouletteWinnings bet choice result - bet)]

/-- The outcome of the initial blackjack deal. -/
inductive DealResult where
  | immediate (net : Int)
  | session (s : BJState)
  deriving DecidableEq, Repr

/-- The natural-blackjack check of `Gambling.blackjack`: a player total of
21 resolves at once — a push against a dealer 21, else winnings
`int(bet * 2.5)` for a net of `int(bet * 2.5) - bet`; otherwise a live
session (the `BlackjackView`) is created and no wallet update happens. -/
def bjDealStep (bet : Int) (player dealer deck : List Rank) : DealResult :=
  if card_value player = 21 then
    if card_value dealer = 21 then DealResult.immediate 0
    else DealResult.immediate (5 * bet / 2 - bet)
  else DealResult.session ⟨deck, player, dealer, bet, false, [], []⟩

/-- Four `deck.pop()` calls of the initial deal: two player cards then two
dealer cards, each from the end of the pile. -/
def draw4 (deck : List Rank) : Option (Rank × Rank × Rank × Rank × List Rank) :=
  match popCard deck with
  | none => none
  | some (p1, rest1) =>
    match popCard rest1 with
    | none => none
    | some (p2, rest2) =>
      match popCard rest2 with
      | none => none
      | some (d1, rest3) =>
        match popCard rest3 with
        | none => none
        | some (d2, rest4) => some (p1, p2, d1, d2, rest4)

/-- `Gambling.blackjack`: validate the stake, lock, balance pre-check,
deal, then either settle a natural at once (one delta, one journal entry)
or hand the untouched wallet to a live `BlackjackView` session. -/
def blackjackTrace (bet balance : Int) (deck : List Rank) : List Event × Option BJState :=
  if bet ≤ 0 then ([Event.reject BetError.invalidBet], none)
  else if bet > blackjackMaxBet then ([Event.reject BetError.invalidBet], none)
  else if balance < bet then ([Event.lockAcquire, Event.reject BetError.insufficientFunds], none)
  else
    match draw4 deck with
    | none => ([Event.lockAcquire], none)
    | some (p1, p2, d1, d2, rest) =>
      match bjDealStep bet [p1, p2] [d1, d2] rest with
      | DealResult.immediate net =>
        ([Event.lockAcquire, Event.delta net, Event.journal net], none)
      | DealResult.session s => ([Event.lockAcquire], some s)

/-- C4: a stake that is non-positive or above the game's ceiling is
rejected with `InvalidBet` as the trace's only event — no lock
acquisition, no ledger delta, no journal entry — for each of the three
games; and the three ceilings are pairwise distinct. -/
theorem invalid_bet_fails_fast (bet balance : Int) (r0 r1 r2 : SlotSymbol)
    (choice : RChoice) (result : RSlot) (deck : List Rank) :
    (bet ≤ 0 ∨ bet > slotsMaxBet →
      slotsTrace bet balance r0 r1 r2 = [Event.reject BetError.invalidBet]) ∧
    (bet ≤ 0 ∨ bet > blackjackMaxBet →
      blackjackTrace bet balance deck = ([Event.reject BetError.invalidBet], none)) ∧
    (bet ≤ 0 ∨ bet > rouletteMaxBet →
      rouletteTrace bet balance choice result = [Event.reject BetError.invalidBet]) ∧
    slotsMaxBet ≠ blackjackMaxBet ∧ slotsMaxBet ≠ rouletteMaxBet ∧
      blackjackMaxBet ≠ rouletteMaxBet := by
  refine ⟨fun h => ?_, fun h => ?_, fun h => ?_, by decide, by decide, by decide⟩
  · unfold slotsTrace
    unfold slotsMaxBet at h ⊢
    split_ifs <;> first | rfl | omega
  · unfold blackjackTrace
    unfold blackjackMaxBet at h ⊢
    split_ifs <;> first | rfl | omega
  · unfold rouletteTrace
    unfold rouletteMaxBet at h ⊢
    split_ifs <;> first | rfl | omega

/-- Witness for C4 at `bet = 0` (and at `bet = 10001` nothing further is
needed: the hypothesis is discharged with the left disjunct). -/
theorem invalid_bet_fails_fast_witness :
    ((0 : Int) ≤ 0 ∨ (0 : Int) > slotsMaxBet →
      slotsTrace 0 100 SlotSymbol.cherry SlotSymbol.lemon SlotSymbol.orange =
        [Event.reject BetError.invalidBet]) ∧
    ((0 : Int) ≤ 0 ∨ (0 : Int) > blackjackMaxBet →
      blackjackTrace 0 100 [] = ([Event.reject BetError.invalidBet], none)) ∧
    ((0 : Int) ≤ 0 ∨ (0 : Int) > rouletteMaxBet →
      rouletteTrace 0 100 RChoice.red RSlot.zero = [Event.reject BetError.invalidBet]) ∧
    slotsMaxBet ≠ blackjackMaxBet ∧ slotsMaxBet ≠ rouletteMaxBet ∧
      blackjackMaxBet ≠ rouletteMaxBet :=
  invalid_bet_fails_fast 0 100 SlotSymbol.cherry SlotSymbol.lemon SlotSymbol.orange
    RChoice.red RSlot.zero []

/-- C1 counterexample: a winning roulette bet (stake 10 on the exact
number 17, result 17, payout 350 > 0) produces the single ledger delta
`+340` (the net result), not the claimed pair `-10` then `+350`. -/
theorem debit_then_credit_counterexample :
    rouletteWinnings 10 (RChoice.exact (RSlot.num ⟨16, by decide⟩))
        (RSlot.num ⟨16, by decide⟩) = 350 ∧
      (350 : Int) > 0 ∧
      deltasOf (rouletteTrace 10 100 (RChoice.exact (RSlot.num ⟨16, by decide⟩))
        (RSlot.num ⟨16, by decide⟩)) = [340] ∧
      ([(340 : Int)] ≠ [-10, 350]) := by
  refine ⟨by decide, by decide, ?_, by decide⟩
  decide

/-- C1 amended: a validated, funded slots bet debits `-stake` and then
credits `+payout` exactly when the payout is positive; a validated, funded
roulette bet instead applies the single delta `payout - stake`; a
blackjack session settling through `end_game` likewise applies a single
delta of the net result, and a natural blackjack settles with the single
delta `int(2.5*stake) - stake` (0 on a push). -/
theorem settle_delta_shapes (bet balance : Int) (r0 r1 r2 : SlotSymbol)
    (choice : RChoice) (result : RSlot) (deck : List Rank) (s : BJState) (net : Int)
    (hb : 0 < bet) (hbal : bet ≤ balance) :
    (bet ≤ slotsMaxBet →
      deltasOf (slotsTrace bet balance r0 r1 r2) =
        -bet :: (if slotsWinnings bet r0 r1 r2 > 0 then [slotsWinnings bet r0 r1 r2]
          else [])) ∧
    (bet ≤ rouletteMaxBet →
      deltasOf (rouletteTrace bet balance choice result) =
        [rouletteWinnings bet choice result - bet]) ∧
    ((endGame s net).deltas = s.deltas ++ [net] ∧
      (endGame s net).journal = s.journal ++ [net]) ∧
    (bet ≤ blackjackMaxBet →
      ∀ p1 p2 d1 d2 rest, draw4 deck = some (p1, p2, d1, d2, rest) →
        card_value [p1, p2] = 21 →
        deltasOf (blackjackTrace bet balance deck).1 =
          [if card_value [d1, d2] = 21 then 0 else 5 * bet / 2 - bet]) := by
  refine ⟨fun hc => ?_, fun hc => ?_, ⟨rfl, rfl⟩, fun hc p1 p2 d1 d2 rest hdraw hpv => ?_⟩
  · unfold slotsTrace
    rw [if_neg (by omega), if_neg (by omega), if_neg (by omega)]
    rw [deltasOf_append, deltasOf_append]
    by_cases hw : slotsWinnings bet r0 r1 r2 > 0
    · simp [deltasOf, hw]
    · simp [deltasOf, hw]
  · unfold rouletteTrace
    rw [if_neg (by omega), if_neg (by omega), if_neg (by omega)]
    simp [deltasOf]
  · unfold blackjackTrace
    rw [if_neg (by omega), if_neg (by omega), if_neg (by omega), hdraw]
    by_cases hd : card_value [d1, d2] = 21
    · simp [bjDealStep, hpv, hd, deltasOf]
    · simp [bjDealStep, hpv, hd, deltasOf]

/-- Witness for the amended C1 at stake 10, balance 100, a paired slots
draw, a red roulette win, a concrete live session and the deck
`[9, A, K, 5]` dealing the player `5, K` and the dealer `A, 9`. -/
theorem settle_delta_shapes_witness :
    ((10 : Int) ≤ slotsMaxBet →
      deltasOf (slotsTrace 10 100 SlotSymbol.cherry SlotSymbol.cherry SlotSymbol.lemon) =
        -10 :: (if slotsWinnings 10 SlotSymbol.cherry SlotSymbol.cherry SlotSymbol.lemon > 0
          then [slotsWinnings 10 SlotSymbol.cherry SlotSymbol.cherry SlotSymbol.lemon]
          else [])) ∧
    ((10 : Int) ≤ rouletteMaxBet →
      deltasOf (rouletteTrace 10 100 RChoice.red (RSlot.num ⟨0, by decide⟩)) =
        [rouletteWinnings 10 RChoice.red (RSlot.num ⟨0, by decide⟩) - 10]) ∧
    ((endGame ⟨[], [Rank.king, Rank.five], [Rank.ten, Rank.nine], 10, false, [], []⟩
        (-10)).deltas = ([] : List Int) ++ [-10] ∧
      (endGame ⟨[], [Rank.king, Rank.five], [Rank.ten, Rank.nine], 10, false, [], []⟩
        (-10)).journal = ([] : List Int) ++ [-10]) ∧
    ((10 : Int) ≤ blackjackMaxBet →
      ∀ p1 p2 d1 d2 rest,
        draw4 [Rank.nine, Rank.ace, Rank.king, Rank.five] = some (p1, p2, d1, d2, rest) →
        card_value [p1, p2] = 21 →
        deltasOf (blackjackTrace 10 100 [Rank.nine, Rank.ace, Rank.king, Rank.five]).1 =
          [if card_value [d1, d2] = 21 then 0 else 5 * 10 / 2 - 10]) :=
  settle_delta_shapes 10 100 SlotSymbol.cherry SlotSymbol.cherry SlotSymbol.lemon
    RChoice.red (RSlot.num ⟨0, by decide⟩) [Rank.nine, Rank.ace, Rank.king, Rank.five]
    ⟨[], [Rank.king, Rank.five], [Rank.ten, Rank.nine], 10, false, [], []⟩ (-10)
    (by decide) (by decide)

/-- C2 counterexample: at stake 1 a natural blackjack (player `A K`,
dealer `10 9`, value 19 < 21) resolves immediately with net result 1
(winnings `int(1 * 2.5) = 2`), and 1 is not `+1.5 × 1` (twice the net is
2, not `3 × 1`). -/
theorem blackjack_natural_counterexample :
    card_value [Rank.ace, Rank.king] = 21 ∧
      card_value [Rank.ten, Rank.nine] < 21 ∧
      bjDealStep 1 [Rank.ace, Rank.king] [Rank.ten, Rank.nine] [] =
        DealResult.immediate 1 ∧
      (2 * (1 : Int) ≠ 3 * 1) := by
  refine ⟨by decide, by decide, ?_, by decide⟩
  decide

/-- C2 amended: a deal in which the player's two cards total 21 resolves
immediately — a session (`PlayerTurn`) is never created — with net result
`int(2.5*stake) - stake` when the dealer's two cards total less than 21
(this equals `+1.5×stake` exactly when the stake is even, the payout then
being `2.5×stake`), and net result 0 (push) when the dealer also has 21. -/
theorem blackjack_natural_resolves (bet : Int) (player dealer deck : List Rank)
    (hb : 0 < bet) (hp : player.length = 2) (hd : dealer.length = 2)
    (hpv : card_value player = 21) :
    (card_value dealer < 21 →
      bjDealStep bet player dealer deck = DealResult.immediate (5 * bet / 2 - bet)) ∧
    (card_value dealer = 21 →
      bjDealStep bet player dealer deck = DealResult.immediate 0) ∧
    (2 * (5 * bet / 2 - bet) = 3 * bet ↔ 2 ∣ bet) := by
  refine ⟨fun hdv => ?_, fun hdv => ?_, by omega⟩
  · unfold bjDealStep
    rw [if_pos hpv, if_neg (by omega)]
  · unfold bjDealStep
    rw [if_pos hpv, if_pos hdv]

/-- Witness for the amended C2 at stake 2, player `A K`, dealer `10 9`. -/
theorem blackjack_natural_resolves_witness :
    (card_value [Rank.ten, Rank.nine] < 21 →
      bjDealStep 2 [Rank.ace, Rank.king] [Rank.ten, Rank.nine] [] =
        DealResult.immediate (5 * 2 / 2 - 2)) ∧
    (card_value [Rank.ten, Rank.nine] = 21 →
      bjDealStep 2 [Rank.ace, Rank.king] [Rank.ten, Rank.nine] [] =
        DealResult.immediate 0) ∧
    ((2 : Int) * (5 * 2 / 2 - 2) = 3 * 2 ↔ (2 : Int) ∣ 2) :=
  blackjack_natural_resolves 2 [Rank.ace, Rank.king] [Rank.ten, Rank.nine] []
    (by decide) (by decide) (by decide) (by decide)

/-- C10: a validated, funded blackjack deal that does not resolve
immediately acquires the lock and creates a live session, but applies no
ledger delta and writes no journal entry: any wallet is left exactly as it
was.  (The stake is never debited up front, so a session abandoned with no
Hit or Stand — e.g. on the 60-second view timeout, which has no handler —
costs the player nothing.) -/
theorem blackjack_no_upfront_debit (bet balance : Int) (deck : List Rank)
    (w : Option Wallet) (p1 p2 d1 d2 : Rank) (rest : List Rank)
    (hb : 0 < bet) (hc : bet ≤ blackjackMaxBet) (hbal : bet ≤ balance)
    (hdraw : draw4 deck = some (p1, p2, d1, d2, rest))
    (hpv : card_value [p1, p2] ≠ 21) :
    blackjackTrace bet balance deck =
      ([Event.lockAcquire],
        some ⟨rest, [p1, p2], [d1, d2], bet, false, [], []⟩) ∧
    applyDeltas w (deltasOf (blackjackTrace bet balance deck).1) = w ∧
    journalOf (blackjackTrace bet balance deck).1 = [] := by
  have htrace : blackjackTrace bet balance deck =
      ([Event.lockAcquire], some ⟨rest, [p1, p2], [d1, d2], bet, false, [], []⟩) := by
    unfold blackjackTrace
    rw [if_neg (by omega), if_neg (by omega), if_neg (by omega), hdraw]
    simp [bjDealStep, hpv]
  refine ⟨htrace, ?_, ?_⟩ <;> rw [htrace] <;> rfl

/-- Witness for C10: stake 10, balance 100, deck `[9, 3, K, 5]` dealing
the player `5, K` (value 15) and the dealer `3, 9`. -/
theorem blackjack_no_upfront_debit_witness :
    blackjackTrace 10 100 [Rank.nine, Rank.three, Rank.king, Rank.five] =
      ([Event.lockAcquire],
        some ⟨[], [Rank.five, Rank.king], [Rank.three, Rank.nine], 10, false, [], []⟩) ∧
    applyDeltas (some zeroWallet)
      (deltasOf (blackjackTrace 10 100 [Rank.nine, Rank.three, Rank.king, Rank.five]).1) =
      some zeroWallet ∧
    journalOf (blackjackTrace 10 100 [Rank.nine, Rank.three, Rank.king, Rank.five]).1 = [] :=
  blackjack_no_upfront_debit 10 100 [Rank.nine, Rank.three, Rank.king, Rank.five]
    (some zeroWallet) Rank.five Rank.king Rank.three Rank.nine []
    (by decide) (by decide) (by decide) (by decide) (by decide)

/-! ## Transaction journal (`Gambling.add_wallet_event`) -/

/-- The state `add_wallet_event` can touch: the account's wallet document,
the `wallet_events` collection (amounts, oldest first), and the error log
(a count of logged failures). -/
structure JWorld where
  wallet : Option Wallet
  wallet_events : List Int
  log : Nat
  deriving DecidableEq, Repr

/-- The underlying `wallet_events.insert_one` call: appends one record, or
raises (`Except.error`) when the store is unavailable (`dbOk = false`). -/
def insert_event (dbOk : Bool) (w : JWorld) (amount : Int) : Except Unit JWorld :=
  if dbOk then Except.ok { w with wallet_events := w.wallet_events ++ [amount] }
  else Except.error ()

/-- `Gambling.add_wallet_event`: the insert inside `try`, any failure
caught and logged.  Total — it returns a `JWorld`, never an error. -/
def add_wallet_event (dbOk : Bool) (w : JWorld) (amount : Int) : JWorld :=
  match insert_event dbOk w amount with
  | Except.ok w' => w'
  | Except.error _ => { w with log := w.log + 1 }

/-- C9: `add_wallet_event` never alters the wallet (so a journal failure
cannot roll back an applied ledger delta), and a failed insert is exactly
logged — journal unchanged, one log line — while a successful one appends
exactly the one record. -/
theorem add_wallet_event_best_effort (dbOk : Bool) (w : JWorld) (amount : Int) :
    (add_wallet_event dbOk w amount).wallet = w.wallet ∧
    (dbOk = false →
      add_wallet_event dbOk w amount = { w with log := w.log + 1 }) ∧
    (dbOk = true →
      add_wallet_event dbOk w amount =
        { w with wallet_events := w.wallet_events ++ [amount] }) := by
  cases dbOk <;> simp [add_wallet_event, insert_event]
